import Mathlib

/-!
Verification of the photo-annotation cache logic of the camera application.

The development shallowly embeds the storage / annotation logic of the
repository's source files:

* namespace `D`   — the Detail screen of `src/app/(tabs)/Detail.tsx`
  (hash-keyed "analysisCache" record plus per-entry "analysis_<uri>_<lang>"
  records);
* namespace `P1`  — the Detail screen revision of `src/unnamed/part_001`
  (single "analyses" record keyed by "<uri>_<lang>");
* namespace `Idx` — the camera tab of `src/app/(tabs)/index.tsx`;
* namespace `P3`  — the camera tab revision of `src/unnamed/part_003`.

External collaborators are modelled as parameters: the SHA-256 digest of
expo-crypto as a function `String → String`, the image optimizer and the
base64 conversion as functions `String → String`, and the OpenAI chat
completion endpoint as a function from requests to either an error message
(a thrown / rejected error) or an optional response text (null content is
`none`).  AsyncStorage is an association list from keys to already-parsed
JSON values (`StoredVal`); JSON.stringify/JSON.parse round-trip the shapes
the app stores, so the stored value is modelled structurally.  React state
setters are modelled by explicit state passing: within one event-handler
closure every read of a `useState` value sees the value captured at entry,
so embedded handlers receive those captured values as arguments and return
the updated state.
-/

/-- The language union type of `Detail.tsx` (`type Language = "en" | "es" | "ru"`). -/
inductive Lang where
  | en
  | es
  | ru
deriving DecidableEq

/-- The string code of a language, as used in storage keys and prompts. -/
def Lang.code : Lang → String
  | .en => "en"
  | .es => "es"
  | .ru => "ru"

/-- A photo item (`type PhotoItem = { uri: string }`). -/
structure Photo where
  uri : String
deriving DecidableEq

/-- A value persisted in AsyncStorage, in parsed form.  The app stores plain
strings (the language preference), string-to-string records (the
"analysisCache" and "analyses" blobs), photo arrays ("capturedPhotos"), and
annotation objects (the "analysis_<uri>_<lang>" entries holding
text/timestamp/language). -/
inductive StoredVal where
  | str (s : String)
  | record (entries : List (String × String))
  | photoList (items : List Photo)
  | annObj (text timestamp language : String)
deriving DecidableEq

/-- The AsyncStorage key-value store. -/
abbrev Store := List (String × StoredVal)

/-- First binding of a key in an association list (JS object / AsyncStorage lookup). -/
def lookupA {α : Type} : List (String × α) → String → Option α
  | [], _ => none
  | (k, v) :: rest, key => if k = key then some v else lookupA rest key

/-- Set a key in an association list, replacing an existing binding in place
and appending otherwise (JS object assignment / AsyncStorage setItem). -/
def setA {α : Type} : List (String × α) → String → α → List (String × α)
  | [], key, v => [(key, v)]
  | (k, w) :: rest, key, v =>
      if k = key then (k, v) :: rest else (k, w) :: setA rest key v

/-- The keys of an association list (Object.keys / AsyncStorage.getAllKeys). -/
def keysA {α : Type} (l : List (String × α)) : List String :=
  l.map Prod.fst

/-- JavaScript `s.startsWith(pre)`. -/
def jsStartsWith (s pre : String) : Bool :=
  pre.data.isPrefixOf s.data

/-- JavaScript `s.endsWith(suf)`. -/
def jsEndsWith (s suf : String) : Bool :=
  suf.data.isSuffixOf s.data

/-- Infix test over character lists, used for JavaScript `includes`. -/
def isInfixChars (pat : List Char) : List Char → Bool
  | [] => pat.isEmpty
  | c :: rest => pat.isPrefixOf (c :: rest) || isInfixChars pat rest

/-- JavaScript `s.includes(sub)`. -/
def jsIncludes (s sub : String) : Bool :=
  isInfixChars sub.data s.data

/-- JavaScript `a || b` for an optional string `a`: `null`/`undefined` and the
empty string are falsy. -/
def jsOr (c : Option String) (d : String) : String :=
  match c with
  | some s => if s = "" then d else s
  | none => d

/-- JavaScript truthiness of an optional string. -/
def truthy (c : Option String) : Bool :=
  match c with
  | some s => s ≠ ""
  | none => false

/-- The key string "<uri>_<lang>": the "analyses" record key of part_001 and
the SHA-256 preimage used for the hash-keyed cache of `Detail.tsx`
(both spell it as the template literal over uri and selectedLanguage). -/
def annKey (uri : String) (lang : Lang) : String :=
  uri ++ "_" ++ lang.code

/-- The AsyncStorage key "analysis_<uri>_<lang>" of the per-entry layout of
`Detail.tsx`. -/
def storageAnnKey (uri : String) (lang : Lang) : String :=
  "analysis_" ++ annKey uri lang

/-- One content part of a chat completion request. -/
inductive ContentPart where
  | text (body : String)
  | imageUrl (url : String)
deriving DecidableEq

/-- A chat completion request sent to the OpenAI client. -/
structure ChatRequest where
  model : String
  max_tokens : Option Nat
  parts : List ContentPart
deriving DecidableEq

/-- Whether a request carries an image part (a `describe` request); requests
without one are text-only (`translate` requests). -/
def ChatRequest.hasImage (r : ChatRequest) : Bool :=
  r.parts.any fun p =>
    match p with
    | .imageUrl _ => true
    | .text _ => false

deriving instance DecidableEq for Except

/-- Outcome of one remote chat completion call: a thrown/rejected error with
its message, or a response whose `choices[0].message.content` is the optional
string (`none` for null content). -/
abbrev ApiResult := Except String (Option String)

/-- The remote annotator collaborator. -/
abbrev Remote := ChatRequest → ApiResult

/-- A text-only chat request with no token limit, as built by the translation
helpers of both revisions. -/
def textReq (body : String) : ChatRequest :=
  { model := "gpt-4o-mini", max_tokens := none, parts := [.text body] }

/-- The translation prompt of `translateAnalysis` /
`translateAnalysisInBackground` / `loadAnalysisFromStorage` (identical text in
`Detail.tsx` and part_001). -/
def translationPrompt (targetLanguage : Lang) (text : String) : String :=
  match targetLanguage with
  | .en => "Translate the following text to English: \"" ++ text ++ "\""
  | .es => "Translate the following text to Spanish: \"" ++ text ++ "\""
  | .ru => "Translate the following text to Russian: \"" ++ text ++ "\""

/-- Shape test: the optional stored value at a record-valued storage key is
absent or a record (so JSON.parse of it cannot throw nor mis-shape). -/
def recordShaped (v : Option StoredVal) : Bool :=
  match v with
  | none => true
  | some (.record _) => true
  | some _ => false

/-- Shape test: a stored value is an annotation object. -/
def isAnnObj (v : StoredVal) : Bool :=
  match v with
  | .annObj _ _ _ => true
  | _ => false

/-- Wellformedness of a store for the per-entry layout of `Detail.tsx`:
every value stored under a key starting with "analysis_" is an annotation
object.  (The record key "analysisCache" does not start with "analysis_".) -/
def analysesShaped (s : Store) : Bool :=
  List.all s fun e => ! jsStartsWith e.1 "analysis_" || isAnnObj e.2

namespace D

/-- The describe prompt of `Detail.tsx` `analyzeImage` (lines 647-663):
an English default, overridden for Spanish and Russian. -/
def describePrompt (lang : Lang) : String :=
  match lang with
  | .es => "Describe esta imagen en términos generales. Si hay personas, describe la escena en general sin identificar a las personas. Responde completamente en español."
  | .ru => "Опишите это изображение в общих чертах. Если на нем есть люди, опишите сцену в целом, не идентифицируя людей. Ответьте полностью на русском языке."
  | .en => "Describe this image in general terms. If there are people, describe the scene generally without identifying individuals."

/-- The component state of the `Detail` screen of `Detail.tsx`: the
`useState`/`useRef` cells the storage logic touches, plus the AsyncStorage
contents. -/
structure DState where
  memCache : List (String × String)
  store : Store
  capturedPhotos : List Photo
  selectedPhoto : Option Photo
  aiAnalysis : Option String
  isAnalyzing : Bool
  analysisStep : String
  isAnalysisCollapsed : Bool
  selectedLanguage : Lang
  isLanguageMenuOpen : Bool
  isSelectionMode : Bool
  selectedPhotos : List String
  showDeleteConfirmation : Bool
deriving DecidableEq

/-- `saveAnalysisToStorage` of `Detail.tsx` (lines 165-207).  Updates the
in-memory cache under the hash, merges the hash entry into the persisted
"analysisCache" record, then writes the "analysis_<uri>_<lang>" entry with
text/timestamp/language.  `lang` is the `selectedLanguage` value captured by
the calling closure; `now` is `new Date().toISOString()`.  If the persisted
"analysisCache" value is not a record, JSON.parse throws and the catch leaves
storage untouched (the in-memory cache was already updated before the throw). -/
def saveAnalysisToStorage (now : String) (lang : Lang) (st : DState)
    (imageUri analysis imageHash : String) : DState :=
  let mem := setA st.memCache imageHash analysis
  match lookupA st.store "analysisCache" with
  | some (.record existing) =>
      let store1 := setA st.store "analysisCache" (.record (setA existing imageHash analysis))
      let store2 := setA store1 (storageAnnKey imageUri lang) (.annObj analysis now lang.code)
      { st with memCache := mem, store := store2 }
  | none =>
      let store1 := setA st.store "analysisCache" (.record [(imageHash, analysis)])
      let store2 := setA store1 (storageAnnKey imageUri lang) (.annObj analysis now lang.code)
      { st with memCache := mem, store := store2 }
  | some _ => { st with memCache := mem }

/-- The AsyncStorage leg of `openPhoto` of `Detail.tsx` (lines 536-548):
look the hash up in the persisted "analysisCache" record, populate the
in-memory cache and the displayed analysis on a truthy hit. -/
def openPhotoStorage (st : DState) (imageHash : String) : DState :=
  match lookupA st.store "analysisCache" with
  | some (.record parsedCache) =>
      match lookupA parsedCache imageHash with
      | some v =>
          if v = "" then st
          else { st with memCache := setA st.memCache imageHash v, aiAnalysis := some v }
      | none => st
  | some _ => st
  | none => st

/-- `openPhoto` of `Detail.tsx` (lines 512-555): clear the previous analysis,
select the photo, then try the in-memory cache and the persisted cache under
the hash of "<uri>_<selectedLanguage>". -/
def openPhoto (digest : String → String) (st : DState) (item : Photo) : DState :=
  let st0 : DState := { st with aiAnalysis := none, selectedPhoto := some item }
  let imageHash := digest (annKey item.uri st.selectedLanguage)
  match lookupA st0.memCache imageHash with
  | some v =>
      if v = "" then openPhotoStorage st0 imageHash
      else { st0 with aiAnalysis := some v }
  | none => openPhotoStorage st0 imageHash

/-- The remote leg of `analyzeImage` of `Detail.tsx` (lines 616-731): optimize
the image, convert it to base64, send one describe request (text prompt plus
image part), and on success persist the result under the hash and the
per-entry key before resolving; on a thrown error reject with the error,
leaving both caches untouched. -/
def analyzeImageRemote (optimize toBase64 : String → String) (remote : Remote)
    (now : String) (st : DState) (imageUri imageHash : String) :
    Except String String × DState × List ChatRequest :=
  let st2 : DState := { st with analysisStep := "Optimizing image..." }
  let optimizedUri := optimize imageUri
  let st3 : DState := { st2 with analysisStep := "Processing image..." }
  let base64Image := toBase64 optimizedUri
  let st4 : DState := { st3 with analysisStep := "Sending to AI for analysis..." }
  let req : ChatRequest :=
    { model := "gpt-4o-mini", max_tokens := none,
      parts := [.text (describePrompt st.selectedLanguage),
                .imageUrl ("data:image/jpeg;base64," ++ base64Image)] }
  match remote req with
  | .ok content =>
      let analysisResult := jsOr content "No analysis available"
      let st5 := saveAnalysisToStorage now st.selectedLanguage
        { st4 with analysisStep := "Analysis complete!" } imageUri analysisResult imageHash
      (.ok analysisResult,
       { st5 with aiAnalysis := some analysisResult, isAnalysisCollapsed := false,
                  isAnalyzing := false },
       [req])
  | .error msg =>
      (.error msg,
       { st4 with aiAnalysis := some ("Error analyzing image: " ++ msg), isAnalyzing := false },
       [req])

/-- The AsyncStorage leg of `analyzeImage` of `Detail.tsx` (lines 597-614):
check the persisted "analysisCache" record for the hash; on a truthy hit copy
it into memory and return it, otherwise (including a storage read/parse error)
continue with the API call. -/
def analyzeImageStorage (optimize toBase64 : String → String) (remote : Remote)
    (now : String) (st : DState) (imageUri imageHash : String) :
    Except String String × DState × List ChatRequest :=
  let st1 : DState := { st with analysisStep := "Checking storage..." }
  match lookupA st1.store "analysisCache" with
  | some (.record parsedCache) =>
      match lookupA parsedCache imageHash with
      | some v =>
          if v = "" then analyzeImageRemote optimize toBase64 remote now st1 imageUri imageHash
          else (.ok v,
                { st1 with memCache := setA st1.memCache imageHash v, aiAnalysis := some v,
                           isAnalyzing := false },
                [])
      | none => analyzeImageRemote optimize toBase64 remote now st1 imageUri imageHash
  | some _ => analyzeImageRemote optimize toBase64 remote now st1 imageUri imageHash
  | none => analyzeImageRemote optimize toBase64 remote now st1 imageUri imageHash

/-- `analyzeImage` of `Detail.tsx` (lines 562-737).  The cache key is the
digest of "<uri>_<selectedLanguage>"; the in-memory cache is consulted first
(JS truthiness: an empty cached string is a miss), then persistent storage,
then the remote annotator.  The result is the resolved analysis text or the
rejection message; the third component lists the remote requests issued. -/
def analyzeImage (digest optimize toBase64 : String → String) (remote : Remote)
    (now : String) (st : DState) (imageUri : String) :
    Except String String × DState × List ChatRequest :=
  let st0 : DState := { st with isAnalyzing := true, aiAnalysis := none }
  let imageHash := digest (annKey imageUri st.selectedLanguage)
  match lookupA st0.memCache imageHash with
  | some v =>
      if v = "" then analyzeImageStorage optimize toBase64 remote now st0 imageUri imageHash
      else (.ok v,
            { st0 with analysisStep := "Loading from cache...", aiAnalysis := some v,
                       isAnalyzing := false },
            [])
  | none => analyzeImageStorage optimize toBase64 remote now st0 imageUri imageHash

/-- `translateAnalysis` of `Detail.tsx` (lines 233-287).  One text-only
request; on success the translation is displayed and saved under the digest of
"<selectedPhoto.uri>_<targetLanguage>" (a null selected photo interpolates as
the string "undefined" in the hash preimage and as "" in the saved uri); on a
thrown error the error message is returned as the ordinary string result.
`lang` is the captured `selectedLanguage` used by `saveAnalysisToStorage` for
the per-entry key. -/
def translateAnalysis (digest : String → String) (remote : Remote) (now : String)
    (lang : Lang) (st : DState) (text : String) (targetLanguage : Lang) :
    String × DState × List ChatRequest :=
  let st0 : DState := { st with isAnalyzing := true }
  let req := textReq (translationPrompt targetLanguage text)
  match remote req with
  | .ok content =>
      let translatedText := jsOr content "Translation failed"
      let st1 : DState := { st0 with aiAnalysis := some translatedText }
      let hashUri :=
        match st.selectedPhoto with
        | some p => p.uri
        | none => "undefined"
      let imageHash := digest (hashUri ++ "_" ++ targetLanguage.code)
      let saveUri :=
        match st.selectedPhoto with
        | some p => p.uri
        | none => ""
      let st2 := saveAnalysisToStorage now lang st1 saveUri translatedText imageHash
      (translatedText, { st2 with isAnalyzing := false }, [req])
  | .error msg =>
      ("Error translating text: " ++ msg, { st0 with isAnalyzing := false }, [req])

/-- `translateAnalysisInBackground` of `Detail.tsx` (lines 355-409): one
text-only request; on success save under the digest of "<uri>_<target>",
on error do nothing.  `lang` is the captured `selectedLanguage` used for the
per-entry key inside `saveAnalysisToStorage`. -/
def translateAnalysisInBackground (digest : String → String) (remote : Remote)
    (now : String) (lang : Lang) (st : DState) (text imageUri : String)
    (targetLanguage : Lang) : DState × List ChatRequest :=
  let req := textReq (translationPrompt targetLanguage text)
  match remote req with
  | .ok content =>
      let translatedText := jsOr content "Translation failed"
      let imageHash := digest (annKey imageUri targetLanguage)
      (saveAnalysisToStorage now lang st imageUri translatedText imageHash, [req])
  | .error _ => (st, [req])

/-- JavaScript `key.replace("analysis_", "")` for the keys handled by
`getAllCachedAnalyses`: every such key starts with "analysis_", so replacing
the first occurrence strips that leading marker. -/
def dropAnalysisMarker (k : String) : String :=
  if jsStartsWith k "analysis_" then k.drop 9 else k

/-- `getAllCachedAnalyses` of `Detail.tsx` (lines 290-307): the keys starting
with "analysis_", each with the uri extracted as the segment before the first
underscore of the stripped key and the (parsed) stored value. -/
def getAllCachedAnalyses (st : DState) : List (String × String × Option StoredVal) :=
  let analysisKeys := (keysA st.store).filter fun k => jsStartsWith k "analysis_"
  analysisKeys.map fun k =>
    (k, ((dropAnalysisMarker k).splitOn "_").headD "", lookupA st.store k)

/-- The loop body of `translateAllCachedAnalyses` of `Detail.tsx`
(lines 326-348): skip falsy entries, skip entries already in the target
language, fire a background translation otherwise; a value that is not an
annotation object makes JSON.parse throw, aborting the rest of the loop via
the surrounding catch. -/
def translateAllLoop (digest : String → String) (remote : Remote) (now : String)
    (lang : Lang) (targetLanguage : Lang) :
    DState → List (String × String × Option StoredVal) → DState × List ChatRequest
  | st, [] => (st, [])
  | st, (_, uri, v) :: rest =>
      match v with
      | none => translateAllLoop digest remote now lang targetLanguage st rest
      | some (.annObj text _ language) =>
          if language = targetLanguage.code then
            translateAllLoop digest remote now lang targetLanguage st rest
          else
            let out := translateAnalysisInBackground digest remote now lang st text uri targetLanguage
            let outRest := translateAllLoop digest remote now lang targetLanguage out.1 rest
            (outRest.1, out.2 ++ outRest.2)
      | some _ => (st, [])

/-- `translateAllCachedAnalyses` of `Detail.tsx` (lines 310-352): among the
cached "analysis_" entries, translate in the background those whose key does
not mention "_<target>".  The un-awaited background tasks are sequentialized. -/
def translateAllCachedAnalyses (digest : String → String) (remote : Remote)
    (now : String) (lang : Lang) (st : DState) (targetLanguage : Lang) :
    DState × List ChatRequest :=
  let cachedAnalyses := getAllCachedAnalyses st
  let analysesToTranslate :=
    cachedAnalyses.filter fun item => ! jsIncludes item.1 ("_" ++ targetLanguage.code)
  translateAllLoop digest remote now lang targetLanguage st analysesToTranslate

/-- `loadAnalysisFromStorage` of `Detail.tsx` (lines 1001-1087).  Return the
text stored under "analysis_<uri>_<selectedLanguage>" when present; otherwise
translate the first entry whose key starts with "analysis_<uri>_" into the
selected language, persist it, and return it; with no such entry return null.
A malformed stored value corresponds to the caught-parse / undefined-field
degenerate paths and yields null.  `lang` is the captured `selectedLanguage`. -/
def loadAnalysisFromStorage (digest : String → String) (remote : Remote)
    (now : String) (lang : Lang) (st : DState) (imageUri : String) :
    Option String × DState × List ChatRequest :=
  match lookupA st.store (storageAnnKey imageUri lang) with
  | some (.annObj text _ _) => (some text, st, [])
  | some _ => (none, st, [])
  | none =>
      let matchingKeys :=
        (keysA st.store).filter fun k => jsStartsWith k ("analysis_" ++ imageUri ++ "_")
      match matchingKeys with
      | [] => (none, st, [])
      | fk :: _ =>
          match lookupA st.store fk with
          | some (.annObj text _ _) =>
              let st0 : DState := { st with isAnalyzing := true }
              let req := textReq (translationPrompt lang text)
              match remote req with
              | .ok content =>
                  let translatedText := jsOr content "Translation failed"
                  let imageHash := digest (annKey imageUri lang)
                  let st1 := saveAnalysisToStorage now lang st0 imageUri translatedText imageHash
                  (some translatedText, { st1 with isAnalyzing := false }, [req])
              | .error msg =>
                  (some ("Error translating: " ++ msg), { st0 with isAnalyzing := false }, [req])
          | some _ => (none, st, [])
          | none => (none, st, [])

/-- The per-uri body of the deletion loop of `deleteSelectedPhotos` of
`Detail.tsx` (lines 782-823).  `keysToRemove` collects the keys starting with
"analysis_<uri>" plus the "analysisCache" key (the in-memory ref is always a
truthy object); when it contains "analysisCache" only the record-pruning
branch runs (entries whose hash key has the uri as a substring are dropped
from the persisted record and the in-memory cache); only otherwise are the
collected keys multi-removed. -/
def deleteForUri (sm : Store × List (String × String)) (uri : String) :
    Store × List (String × String) :=
  let keys := keysA sm.1
  let keysToRemove :=
    keys.filter fun k => jsStartsWith k ("analysis_" ++ uri) || k == "analysisCache"
  if keysToRemove.contains "analysisCache" then
    match lookupA sm.1 "analysisCache" with
    | some (.record parsedCache) =>
        (setA sm.1 "analysisCache"
           (.record (parsedCache.filter fun e => ! jsIncludes e.1 uri)),
         sm.2.filter fun e => ! jsIncludes e.1 uri)
    | some _ => sm
    | none => sm
  else if keysToRemove.isEmpty then sm
  else (sm.1.filter (fun e => ! keysToRemove.contains e.1), sm.2)

/-- `deleteSelectedPhotos` of `Detail.tsx` (lines 760-829): filter the
selected uris out of the collection, persist the remaining photos, reset the
selection UI, then run the per-uri annotation deletion loop over the selected
uris captured at entry. -/
def deleteSelectedPhotos (st : DState) : DState :=
  let remainingPhotos := st.capturedPhotos.filter fun photo => ! st.selectedPhotos.contains photo.uri
  let st0 : DState :=
    { st with capturedPhotos := remainingPhotos,
              store := setA st.store "capturedPhotos" (.photoList remainingPhotos),
              selectedPhotos := [], isSelectionMode := false,
              showDeleteConfirmation := false }
  let out := st.selectedPhotos.foldl deleteForUri (st0.store, st.memCache)
  { st0 with store := out.1, memCache := out.2 }

/-- `changeLanguage` of `Detail.tsx` (lines 1090-1115).  Selecting the current
language only closes the menu.  Otherwise the new language is selected and
persisted, a displayed analysis is re-translated, and all cached analyses are
translated in the background; the captured `selectedLanguage` (the previous
language) is what the nested saves use for their per-entry keys. -/
def changeLanguage (digest : String → String) (remote : Remote) (now : String)
    (st : DState) (language : Lang) : DState × List ChatRequest :=
  if language = st.selectedLanguage then
    ({ st with isLanguageMenuOpen := false }, [])
  else
    let lang := st.selectedLanguage
    let st1 : DState :=
      { st with selectedLanguage := language, isLanguageMenuOpen := false,
                store := setA st.store "selectedLanguage" (.str language.code) }
    match st.selectedPhoto, st.aiAnalysis with
    | some _, some a =>
        if a = "" then
          let out := translateAllCachedAnalyses digest remote now lang st1 language
          (out.1, out.2)
        else
          let out1 := translateAnalysis digest remote now lang st1 a language
          let out2 := translateAllCachedAnalyses digest remote now lang out1.2.1 language
          (out2.1, out1.2.2 ++ out2.2)
    | _, _ =>
        let out := translateAllCachedAnalyses digest remote now lang st1 language
        (out.1, out.2)

end D

namespace P1

/-- The describe prompt of part_001 `analyzeImage` (lines 626-672): an English
default, overridden for Spanish and Russian. -/
def describePrompt (lang : Lang) : String :=
  match lang with
  | .es =>
      "Por favor, analiza esta imagen y proporciona una descripción basada en lo que ves:\n\n" ++
      "Si es un documento (como una factura, certificado, identificación, etc.):\n" ++
      "1. **Tipo y Propósito del Documento**\n" ++
      "   - Identifica el tipo y propósito del documento\n\n" ++
      "2. **Información Clave**\n" ++
      "   - Extrae fechas importantes, números, cantidades y otros detalles clave\n\n" ++
      "3. **Información Adicional**\n" ++
      "   - Anota cualquier otro detalle relevante\n\n" ++
      "Si NO es un documento (como una persona, escena, objeto, etc.):\n" ++
      "- Proporciona una descripción general de lo que hay en la imagen\n" ++
      "- Para personas: describe apariencia general, ropa, entorno y postura\n" ++
      "- NO identifiques ni nombres a ninguna persona en la imagen\n" ++
      "- Concéntrate en elementos visuales objetivos en lugar de hacer suposiciones"
  | .ru =>
      "Пожалуйста, проанализируйте это изображение и предоставьте описание на основе того, что вы видите:\n\n" ++
      "Если это документ (например, счет, сертификат, удостоверение личности и т.д.):\n" ++
      "1. **Тип и назначение документa**\n" ++
      "   - Определите тип и назначение документa\n\n" ++
      "2. **Ключевая информация**\n" ++
      "   - Извлеките важные даты, номера, суммы и другие ключевые детали\n\n" ++
      "3. **Дополнительная информация**\n" ++
      "   - Отметьте любые другие соответствующие детали\n\n" ++
      "Если это НЕ документ (например, человек, сцена, объект и т.д.):\n" ++
      "- Предоставьте общее описание того, что изображено на снимке\n" ++
      "- Для людей: опишите общий вид, одежду, окружение и позу\n" ++
      "- НЕ идентифицируйте и не называйте людей на изображении\n" ++
      "- Сосредоточьтесь на объективных визуальных элементах, а не на предположениях"
  | .en =>
      "Please analyze this image and provide a description based on what you see:\n\n" ++
      "If this is a document (like an invoice, certificate, ID, etc.):\n" ++
      "1. **Document Type and Purpose**\n" ++
      "   - Identify the type and purpose of the document\n\n" ++
      "2. **Key Information**\n" ++
      "   - Extract important dates, numbers, amounts, and other key details\n\n" ++
      "3. **Additional Information**\n" ++
      "   - Note any other relevant details\n\n" ++
      "If this is NOT a document (like a person, scene, object, etc.):\n" ++
      "- Provide a general description of what\x27s in the image\n" ++
      "- For people: describe general appearance, clothing, setting, and posture\n" ++
      "- DO NOT identify or name any individuals in the image\n" ++
      "- Focus on objective visual elements rather than making assumptions"

/-- The component state of the `Detail` screen of part_001.  Its selection set
holds photo items; the JS `Set<PhotoItem>` compares object references, which
coincides with structural equality here because the selected items are the
entries of the photo list. -/
structure PState where
  store : Store
  capturedPhotos : List Photo
  selectedPhoto : Option Photo
  aiAnalysis : Option String
  isAnalyzing : Bool
  analysisStep : String
  selectedLanguage : Lang
  isLanguageMenuOpen : Bool
  isSelectionMode : Bool
  selectedPhotos : List Photo
  showDeleteConfirmation : Bool
deriving DecidableEq

/-- The any-language fallback of `loadAnalysisForPhoto` of part_001
(lines 145-151): the value of the first key of the "analyses" record that
starts with the photo uri, returned without a truthiness check. -/
def anyLanguageFallback (analyses : List (String × String)) (photoUri : String) :
    Option String :=
  match (keysA analyses).find? (fun k => jsStartsWith k photoUri) with
  | some fallbackKey => lookupA analyses fallbackKey
  | none => none

/-- `loadAnalysisForPhoto` of part_001 (lines 128-158).  Read the "analyses"
record; a truthy entry under "<uri>_<selectedLanguage>" wins, otherwise the
first entry whose key starts with the uri is returned untranslated; a missing
record or a caught parse error yields null.  `lang` is the captured
`selectedLanguage`. -/
def loadAnalysisForPhoto (lang : Lang) (store : Store) (photoUri : String) :
    Option String :=
  match lookupA store "analyses" with
  | some (.record analyses) =>
      match lookupA analyses (annKey photoUri lang) with
      | some v => if v = "" then anyLanguageFallback analyses photoUri else some v
      | none => anyLanguageFallback analyses photoUri
  | some _ => none
  | none => none

/-- `saveAnalysisForPhoto` of part_001 (lines 161-177): merge the analysis
into the "analyses" record under "<uri>_<selectedLanguage>" and write the
record back; a caught parse error writes nothing. -/
def saveAnalysisForPhoto (lang : Lang) (store : Store) (photoUri analysis : String) :
    Store :=
  match lookupA store "analyses" with
  | some (.record analyses) =>
      setA store "analyses" (.record (setA analyses (annKey photoUri lang) analysis))
  | none =>
      setA store "analyses" (.record [(annKey photoUri lang, analysis)])
  | some _ => store

/-- `deleteAnalysesForPhoto` of part_001 (lines 180-205): drop every entry of
the "analyses" record whose key starts with the photo uri, writing the record
back only when at least one key matched. -/
def deleteAnalysesForPhoto (store : Store) (photoUri : String) : Store :=
  match lookupA store "analyses" with
  | some (.record analyses) =>
      let keysToDelete := (keysA analyses).filter fun k => jsStartsWith k photoUri
      if keysToDelete.isEmpty then store
      else setA store "analyses"
        (.record (analyses.filter fun e => ! jsStartsWith e.1 photoUri))
  | some _ => store
  | none => store

/-- `savePhotosToStorage` of part_001 (lines 118-125). -/
def savePhotosToStorage (store : Store) (photos : List Photo) : Store :=
  setA store "capturedPhotos" (.photoList photos)

/-- `deleteSelectedPhotos` of part_001 (lines 208-241): filter the selected
photos out of the collection, delete the analyses of each selected photo, save
the remaining photo list, reset the selection UI. -/
def deleteSelectedPhotos (st : PState) : PState :=
  let updatedPhotos := st.capturedPhotos.filter fun photo => ! st.selectedPhotos.contains photo
  let store1 := st.selectedPhotos.foldl (fun s photo => deleteAnalysesForPhoto s photo.uri) st.store
  let store2 := savePhotosToStorage store1 updatedPhotos
  { st with capturedPhotos := updatedPhotos, store := store2, selectedPhotos := [],
            isSelectionMode := false, showDeleteConfirmation := false }

/-- `translateAnalysis` of part_001 (lines 267-313): one text-only request; on
success display the translation and, when a photo is selected, save it via
`saveAnalysisForPhoto` (under the captured `selectedLanguage`, not the target
language); on a thrown error return the error message as the ordinary string
result. -/
def translateAnalysis (remote : Remote) (lang : Lang) (st : PState)
    (text : String) (targetLanguage : Lang) : String × PState × List ChatRequest :=
  let st0 : PState := { st with isAnalyzing := true }
  let req := textReq (translationPrompt targetLanguage text)
  match remote req with
  | .ok content =>
      let translatedText := jsOr content "Translation failed"
      let st1 : PState := { st0 with aiAnalysis := some translatedText }
      let st2 : PState :=
        match st.selectedPhoto with
        | some p => { st1 with store := saveAnalysisForPhoto lang st1.store p.uri translatedText }
        | none => st1
      (translatedText, { st2 with isAnalyzing := false }, [req])
  | .error msg =>
      ("Error translating text: " ++ msg, { st0 with isAnalyzing := false }, [req])

/-- `translateAnalysisInBackground` of part_001 (lines 362-410): one text-only
request; on success merge the translation into the "analyses" record (under
the captured `selectedLanguage`), on error do nothing. -/
def translateAnalysisInBackground (remote : Remote) (lang : Lang) (store : Store)
    (text imageUri : String) (targetLanguage : Lang) : Store × List ChatRequest :=
  let req := textReq (translationPrompt targetLanguage text)
  match remote req with
  | .ok content =>
      (saveAnalysisForPhoto lang store imageUri (jsOr content "Translation failed"), [req])
  | .error _ => (store, [req])

/-- Insertion-ordered deduplication, as a JS `Set<string>` built by repeated
`add`. -/
def insertUnique (l : List String) (x : String) : List String :=
  if l.contains x then l else l ++ [x]

/-- The unique elements of a list in first-occurrence order. -/
def uniqueList (l : List String) : List String :=
  l.foldl insertUnique []

/-- The per-uri body of `translateAllCachedAnalyses` of part_001
(lines 337-355), checking against the parsed "analyses" snapshot and saving
against the evolving store. -/
def translateAllLoop (remote : Remote) (lang : Lang) (targetLanguage : Lang)
    (analyses : List (String × String)) :
    Store → List String → Store × List ChatRequest
  | store, [] => (store, [])
  | store, uri :: rest =>
      if truthy (lookupA analyses (annKey uri targetLanguage)) then
        translateAllLoop remote lang targetLanguage analyses store rest
      else
        match (keysA analyses).find?
            (fun k => jsStartsWith k uri && ! jsEndsWith k targetLanguage.code) with
        | some sourceKey =>
            match lookupA analyses sourceKey with
            | some v =>
                if v = "" then translateAllLoop remote lang targetLanguage analyses store rest
                else
                  let out := translateAnalysisInBackground remote lang store v uri targetLanguage
                  let outRest := translateAllLoop remote lang targetLanguage analyses out.1 rest
                  (outRest.1, out.2 ++ outRest.2)
            | none => translateAllLoop remote lang targetLanguage analyses store rest
        | none => translateAllLoop remote lang targetLanguage analyses store rest

/-- `translateAllCachedAnalyses` of part_001 (lines 316-359): for each unique
uri segment (the part of each "analyses" key before the first underscore),
translate some other-language entry in the background unless a truthy entry in
the target language already exists. -/
def translateAllCachedAnalyses (remote : Remote) (lang : Lang) (store : Store)
    (targetLanguage : Lang) : Store × List ChatRequest :=
  match lookupA store "analyses" with
  | some (.record analyses) =>
      let photoUris := uniqueList ((keysA analyses).map fun k => ((k.splitOn "_").headD ""))
      translateAllLoop remote lang targetLanguage analyses store photoUris
  | some _ => (store, [])
  | none => (store, [])

/-- The cache-hit test of `analyzeImage` of part_001 (lines 583-589):
`loadAnalysisForPhoto` with a JS truthiness check on the result. -/
def cachedAnalysis (lang : Lang) (store : Store) (imageUri : String) : Option String :=
  match loadAnalysisForPhoto lang store imageUri with
  | some a => if a = "" then none else some a
  | none => none

/-- The remote leg of `analyzeImage` of part_001 (lines 592-728). -/
def analyzeImageRemote (optimize toBase64 : String → String) (remote : Remote)
    (st : PState) (imageUri : String) : Except String String × PState × List ChatRequest :=
  let st1 : PState := { st with analysisStep := "Optimizing image..." }
  let manipUri := optimize imageUri
  let st2 : PState := { st1 with analysisStep := "Loading image..." }
  let base64Image := toBase64 manipUri
  let st3 : PState := { st2 with analysisStep := "Sending to AI for analysis..." }
  let req : ChatRequest :=
    { model := "gpt-4o-mini", max_tokens := some 500,
      parts := [.text (describePrompt st.selectedLanguage),
                .imageUrl ("data:image/jpeg;base64," ++ base64Image)] }
  match remote req with
  | .ok content =>
      let analysisResult := jsOr content "No analysis available"
      let store4 := saveAnalysisForPhoto st.selectedLanguage st3.store imageUri analysisResult
      (.ok analysisResult,
       { st3 with analysisStep := "Analysis complete!", store := store4,
                  aiAnalysis := some analysisResult, isAnalyzing := false },
       [req])
  | .error msg =>
      (.error msg,
       { st3 with aiAnalysis := some ("Error analyzing image: " ++ msg), isAnalyzing := false },
       [req])

/-- `analyzeImage` of part_001 (lines 571-735): a truthy cached analysis (in
the selected language or, via the fallback, in any language) is returned with
no remote call; otherwise one describe request is sent and its result saved. -/
def analyzeImage (optimize toBase64 : String → String) (remote : Remote)
    (st : PState) (imageUri : String) : Except String String × PState × List ChatRequest :=
  let st0 : PState := { st with isAnalyzing := true, aiAnalysis := none }
  match cachedAnalysis st.selectedLanguage st0.store imageUri with
  | some existingAnalysis =>
      (.ok existingAnalysis,
       { st0 with aiAnalysis := some existingAnalysis, isAnalyzing := false }, [])
  | none => analyzeImageRemote optimize toBase64 remote st0 imageUri

/-- `changeLanguage` of part_001 (lines 939-964).  Selecting the current
language only closes the menu; otherwise the new language is selected and
persisted, a displayed analysis is re-translated, and all cached analyses are
translated in the background (the captured previous `selectedLanguage` is what
the nested saves key by). -/
def changeLanguage (remote : Remote) (st : PState) (language : Lang) :
    PState × List ChatRequest :=
  if language = st.selectedLanguage then
    ({ st with isLanguageMenuOpen := false }, [])
  else
    let lang := st.selectedLanguage
    let st1 : PState :=
      { st with selectedLanguage := language, isLanguageMenuOpen := false,
                store := setA st.store "selectedLanguage" (.str language.code) }
    match st.selectedPhoto, st.aiAnalysis with
    | some _, some a =>
        if a = "" then
          let out := translateAllCachedAnalyses remote lang st1.store language
          ({ st1 with store := out.1 }, out.2)
        else
          let out1 := translateAnalysis remote lang st1 a language
          let out2 := translateAllCachedAnalyses remote lang out1.2.1.store language
          ({ out1.2.1 with store := out2.1 }, out1.2.2 ++ out2.2)
    | _, _ =>
        let out := translateAllCachedAnalyses remote lang st1.store language
        ({ st1 with store := out.1 }, out.2)

end P1

namespace Idx

/-- The camera tab state of `index.tsx`. -/
structure IState where
  store : Store
  capturedPhotos : List Photo
deriving DecidableEq

/-- `savePhoto` of `index.tsx` (lines 57-73): prepend the new photo to the
in-memory collection (without re-reading storage) and persist that list. -/
def savePhoto (st : IState) (newPhoto : Photo) : IState :=
  let updatedPhotos := newPhoto :: st.capturedPhotos
  { store := setA st.store "capturedPhotos" (.photoList updatedPhotos),
    capturedPhotos := updatedPhotos }

end Idx

namespace P3

/-- `savePhoto` of part_003 (lines 45-77): re-read the persisted collection,
prepend the new photo to the just-read list, persist it and mirror it in
state; a caught parse error saves nothing. -/
def savePhoto (st : Idx.IState) (newPhoto : Photo) : Idx.IState :=
  match lookupA st.store "capturedPhotos" with
  | some (.photoList currentPhotos) =>
      let updatedPhotos := newPhoto :: currentPhotos
      { store := setA st.store "capturedPhotos" (.photoList updatedPhotos),
        capturedPhotos := updatedPhotos }
  | none =>
      let updatedPhotos := [newPhoto]
      { store := setA st.store "capturedPhotos" (.photoList updatedPhotos),
        capturedPhotos := updatedPhotos }
  | some _ => st

end P3

/-- A miss of the persisted hash-keyed cache of `Detail.tsx`: the
"analysisCache" record is absent, unreadable, or has no truthy entry under the
hash, so `analyzeImage` proceeds to the remote call. -/
def storageCacheMiss (store : Store) (imageHash : String) : Bool :=
  match lookupA store "analysisCache" with
  | some (.record parsedCache) =>
      match lookupA parsedCache imageHash with
      | some v => v = ""
      | none => true
  | some _ => true
  | none => true

theorem lookupA_setA_self {α : Type} (l : List (String × α)) (k : String) (v : α) :
    lookupA (setA l k v) k = some v := by
  induction l with
  | nil => simp [setA, lookupA]
  | cons e rest ih =>
      by_cases h : e.1 = k
      · simp [setA, h, lookupA]
      · simp [setA, h, lookupA, ih]

theorem lookupA_setA_ne {α : Type} (l : List (String × α)) {k k' : String} (v : α)
    (h : k' ≠ k) : lookupA (setA l k v) k' = lookupA l k' := by
  induction l with
  | nil => simp [setA, lookupA, Ne.symm h]
  | cons e rest ih =>
      by_cases he : e.1 = k
      · simp [setA, he, lookupA, Ne.symm h, h]
      · simp [setA, he, lookupA, ih]

theorem lookupA_mem_keysA {α : Type} {l : List (String × α)} {k : String} {v : α}
    (h : lookupA l k = some v) : k ∈ keysA l := by
  induction l with
  | nil => simp [lookupA] at h
  | cons e rest ih =>
      by_cases he : e.1 = k
      · simp [keysA, he.symm]
      · simp [lookupA, he] at h
        simp [keysA] at ih ⊢
        exact Or.inr (ih h)

theorem exists_lookupA_of_mem_keysA {α : Type} {l : List (String × α)} {k : String}
    (h : k ∈ keysA l) : ∃ v, lookupA l k = some v := by
  induction l with
  | nil => simp [keysA] at h
  | cons e rest ih =>
      by_cases he : e.1 = k
      · exact ⟨e.2, by simp [lookupA, he]⟩
      · simp [keysA, Ne.symm he] at h
        simp [lookupA, he]
        exact ih (by simpa [keysA] using h)

theorem lookupA_filter_not {α : Type} (p : String → Bool) (l : List (String × α))
    (k : String) :
    lookupA (l.filter fun e => ! p e.1) k = if p k then none else lookupA l k := by
  induction l with
  | nil => simp [lookupA]
  | cons e rest ih =>
      by_cases he : e.1 = k
      · subst he
        by_cases hp : p e.1
        · simp [hp, List.filter, ih]
        · simp [hp, List.filter, lookupA, ih]
      · by_cases hp : p e.1
        · simp [hp, List.filter, ih, lookupA, he]
        · simp [hp, List.filter, lookupA, he, ih]

theorem isPrefixOf_self_append (l t : List Char) : l.isPrefixOf (l ++ t) = true := by
  induction l with
  | nil => simp [List.isPrefixOf]
  | cons a as ih => simp [List.isPrefixOf, ih]

theorem eq_append_of_isPrefixOf {l m : List Char} (h : l.isPrefixOf m = true) :
    ∃ t, m = l ++ t := by
  induction l generalizing m with
  | nil => exact ⟨m, rfl⟩
  | cons a as ih =>
      cases m with
      | nil => simp [List.isPrefixOf] at h
      | cons b bs =>
          have h' : (a == b && List.isPrefixOf as bs) = true := h
          rw [Bool.and_eq_true, beq_iff_eq] at h'
          obtain ⟨rfl, h2⟩ := h'
          obtain ⟨t, ht⟩ := ih h2
          exact ⟨t, by simp [ht]⟩

theorem mem_of_lookupA {α : Type} {l : List (String × α)} {k : String} {v : α}
    (h : lookupA l k = some v) : (k, v) ∈ l := by
  induction l with
  | nil => simp [lookupA] at h
  | cons e rest ih =>
      obtain ⟨k0, v0⟩ := e
      by_cases he : k0 = k
      · subst he
        simp [lookupA] at h
        subst h
        exact List.mem_cons_self _ _
      · simp [lookupA, he] at h
        exact List.mem_cons_of_mem _ (ih h)

theorem data_append (s t : String) : (s ++ t).data = s.data ++ t.data := by
  cases s
  cases t
  rfl

theorem str_ext {s t : String} (h : s.data = t.data) : s = t := by
  cases s
  cases t
  exact congrArg String.mk h

theorem str_append_assoc (a b c : String) : (a ++ b) ++ c = a ++ (b ++ c) := by
  apply str_ext
  simp [data_append]

theorem jsStartsWith_append (p t : String) : jsStartsWith (p ++ t) p = true := by
  simp [jsStartsWith, data_append, isPrefixOf_self_append]

theorem annKey_inj (u1 u2 : String) (l1 l2 : Lang) :
    annKey u1 l1 = annKey u2 l2 ↔ u1 = u2 ∧ l1 = l2 := by
  constructor
  · intro h
    have hd : u1.data ++ ("_".data ++ l1.code.data) =
        u2.data ++ ("_".data ++ l2.code.data) := by
      have hc := congrArg String.data h
      simpa [annKey, data_append, List.append_assoc] using hc
    have hlen : ("_".data ++ l1.code.data).length = ("_".data ++ l2.code.data).length := by
      cases l1 <;> cases l2 <;> rfl
    obtain ⟨hu, hc⟩ := List.append_inj' hd hlen
    refine ⟨str_ext hu, ?_⟩
    cases l1 <;> cases l2 <;> first
      | rfl
      | exact absurd hc (by decide)
  · rintro ⟨rfl, rfl⟩
    rfl

theorem storageAnnKey_inj (u1 u2 : String) (l1 l2 : Lang) :
    storageAnnKey u1 l1 = storageAnnKey u2 l2 ↔ u1 = u2 ∧ l1 = l2 := by
  constructor
  · intro h
    have hd : "analysis_".data ++ (annKey u1 l1).data =
        "analysis_".data ++ (annKey u2 l2).data := by
      have hc := congrArg String.data h
      simpa [storageAnnKey, data_append] using hc
    have hk : annKey u1 l1 = annKey u2 l2 := str_ext (List.append_cancel_left hd)
    exact (annKey_inj u1 u2 l1 l2).mp hk
  · rintro ⟨rfl, rfl⟩
    rfl

/-- Claim C6: annotation-key derivation is a pure function of the pair
(uri, language), and it is injective: two derived keys — either the
"<uri>_<lang>" string (the part_001 record key, and the preimage the
SHA-256 hash of `Detail.tsx` is applied to) or the per-entry storage key
"analysis_<uri>_<lang>" — are equal exactly when both the uri and the
language agree.  Keys of the hash-keyed layout therefore collide only if the
external SHA-256 collaborator collides on distinct preimages. -/
theorem annotation_key_injective (u1 u2 : String) (l1 l2 : Lang) :
    (annKey u1 l1 = annKey u2 l2 ↔ u1 = u2 ∧ l1 = l2) ∧
    (storageAnnKey u1 l1 = storageAnnKey u2 l2 ↔ u1 = u2 ∧ l1 = l2) :=
  ⟨annKey_inj u1 u2 l1 l2, storageAnnKey_inj u1 u2 l1 l2⟩

/-- Claim C10: selecting the language that is already selected is a no-op
apart from closing the language menu: no store write, no remote request, and
the selected language, displayed analysis, caches and photo collection are
untouched.  Stated for `changeLanguage` of both `Detail.tsx` and part_001. -/
theorem changeLanguage_same_language_noop
    (digest : String → String) (remote : Remote) (now : String)
    (dst : D.DState) (pst : P1.PState) (l1 l2 : Lang)
    (h1 : l1 = dst.selectedLanguage) (h2 : l2 = pst.selectedLanguage) :
    D.changeLanguage digest remote now dst l1 =
      ({ dst with isLanguageMenuOpen := false }, []) ∧
    P1.changeLanguage remote pst l2 =
      ({ pst with isLanguageMenuOpen := false }, []) := by
  constructor
  · simp [D.changeLanguage, h1]
  · simp [P1.changeLanguage, h2]

/-- Witness for C10 at a concrete state with the menu open and an analysis on
display. -/
theorem changeLanguage_same_language_noop_witness :
    let dst : D.DState :=
      { memCache := [("h1", "A cat.")],
        store := [("analysisCache", .record [("h1", "A cat.")])],
        capturedPhotos := [⟨"a"⟩], selectedPhoto := some ⟨"a"⟩,
        aiAnalysis := some "A cat.", isAnalyzing := false, analysisStep := "",
        isAnalysisCollapsed := false, selectedLanguage := .en,
        isLanguageMenuOpen := true, isSelectionMode := false, selectedPhotos := [],
        showDeleteConfirmation := false }
    let pst : P1.PState :=
      { store := [("analyses", .record [("a_en", "A cat.")])],
        capturedPhotos := [⟨"a"⟩], selectedPhoto := some ⟨"a"⟩,
        aiAnalysis := some "A cat.", isAnalyzing := false, analysisStep := "",
        selectedLanguage := .en, isLanguageMenuOpen := true, isSelectionMode := false,
        selectedPhotos := [], showDeleteConfirmation := false }
    D.changeLanguage (fun u => u) (fun _ => .error "down") "T0" dst .en =
      ({ dst with isLanguageMenuOpen := false }, []) ∧
    P1.changeLanguage (fun _ => .error "down") pst .en =
      ({ pst with isLanguageMenuOpen := false }, []) :=
  changeLanguage_same_language_noop (fun u => u) (fun _ => .error "down") "T0"
    _ _ .en .en rfl rfl

/-- Counterexample to claim C8 as stated: `savePhoto` of `index.tsx` does not
read the persisted collection before writing.  With photo "a" persisted but an
empty in-memory collection, saving photo "b" persists just ["b"] instead of
"b" prepended to the just-read collection ["b", "a"]. -/
theorem index_savePhoto_ignores_persisted_collection :
    let st : Idx.IState :=
      { store := [("capturedPhotos", .photoList [⟨"a"⟩])], capturedPhotos := [] }
    lookupA (Idx.savePhoto st ⟨"b"⟩).store "capturedPhotos" =
      some (.photoList [⟨"b"⟩]) ∧
    some (StoredVal.photoList [⟨"b"⟩]) ≠
      some (StoredVal.photoList [⟨"b"⟩, ⟨"a"⟩]) := by
  decide

/-- Claim C8 as amended: `savePhoto` of part_003 first reads the latest
persisted photo collection, then persists the new photo prepended to that
just-read collection (newest first), and mirrors the written collection in
memory.  (The `index.tsx` revision instead prepends to the in-memory
collection without re-reading, per the counterexample.) -/
theorem p3_savePhoto_reads_then_prepends (st : Idx.IState) (p : Photo)
    (ps : List Photo) (h : lookupA st.store "capturedPhotos" = some (.photoList ps)) :
    lookupA (P3.savePhoto st p).store "capturedPhotos" =
      some (.photoList (p :: ps)) ∧
    (P3.savePhoto st p).capturedPhotos = p :: ps := by
  simp [P3.savePhoto, h, lookupA_setA_self]

/-- Witness for the amended C8 at a concrete diverging state. -/
theorem p3_savePhoto_reads_then_prepends_witness :
    let st : Idx.IState :=
      { store := [("capturedPhotos", .photoList [⟨"a"⟩])], capturedPhotos := [] }
    lookupA st.store "capturedPhotos" = some (.photoList [⟨"a"⟩]) ∧
    (lookupA (P3.savePhoto st ⟨"b"⟩).store "capturedPhotos" =
        some (.photoList [⟨"b"⟩, ⟨"a"⟩]) ∧
      (P3.savePhoto st ⟨"b"⟩).capturedPhotos = [⟨"b"⟩, ⟨"a"⟩]) :=
  ⟨by decide, p3_savePhoto_reads_then_prepends _ ⟨"b"⟩ [⟨"a"⟩] (by decide)⟩

/-- Claim C1, evaluated at its failing input: deleting the selected photo
"photo1" leaves every persisted annotation for it intact, in both cache
layouts.  The store holds the hash-keyed "analysisCache" record (under the
actual SHA-256 hex digest of "photo1_en") and the per-entry
"analysis_photo1_en" record.  Because the "analysisCache" key exists, the
branch that would multi-remove the "analysis_<uri>..." keys is skipped, and
the record pruning compares the uri against hex digests by substring, which
never matches; the photo disappears from the collection while both
annotations survive. -/
theorem detail_delete_leaves_both_annotation_layouts :
    let st : D.DState :=
      { memCache := [],
        store := [("analysisCache", .record
            [("7bf4dfd7ecdba59f8473ee83342818b372749cc8d84b2731124c98147b1ee11a",
              "A cat.")]),
          ("analysis_photo1_en", .annObj "A cat." "T0" "en")],
        capturedPhotos := [⟨"photo1"⟩], selectedPhoto := none, aiAnalysis := none,
        isAnalyzing := false, analysisStep := "", isAnalysisCollapsed := false,
        selectedLanguage := .en, isLanguageMenuOpen := false, isSelectionMode := true,
        selectedPhotos := ["photo1"], showDeleteConfirmation := true }
    (D.deleteSelectedPhotos st).capturedPhotos = [] ∧
    lookupA (D.deleteSelectedPhotos st).store "analysis_photo1_en" =
      some (.annObj "A cat." "T0" "en") ∧
    (match lookupA (D.deleteSelectedPhotos st).store "analysisCache" with
     | some (.record r) =>
        lookupA r "7bf4dfd7ecdba59f8473ee83342818b372749cc8d84b2731124c98147b1ee11a"
     | _ => none) = some "A cat." := by
  decide

/-- Counterexample to claim C3 as stated: a remote call that succeeds with
null content ("yields no usable text") still writes: `translateAnalysis` of
`Detail.tsx` persists the placeholder "Translation failed" as the annotation
of the selected photo. -/
theorem empty_content_persists_placeholder :
    let st : D.DState :=
      { memCache := [], store := [], capturedPhotos := [⟨"a"⟩],
        selectedPhoto := some ⟨"a"⟩, aiAnalysis := some "A cat.", isAnalyzing := false,
        analysisStep := "", isAnalysisCollapsed := false, selectedLanguage := .es,
        isLanguageMenuOpen := false, isSelectionMode := false, selectedPhotos := [],
        showDeleteConfirmation := false }
    let out := D.translateAnalysis (fun _ => "h0") (fun _ => .ok none) "T0" .es st "A cat." .es
    lookupA out.2.1.store (storageAnnKey "a" .es) =
      some (.annObj "Translation failed" "T0" "es") ∧
    out.2.1.store ≠ st.store := by
  decide

/-- Claim C3 as amended: when the remote call fails (throws / rejects), no
store write happens — the persisted state is exactly what it was before the
call — for the translation writers of both revisions; but a call that succeeds
with empty content persists the placeholder "Translation failed" (per the
counterexample). -/
theorem remote_error_writes_nothing
    (digest : String → String) (remote : Remote) (now : String) (lang tgt : Lang)
    (st : D.DState) (store : Store) (text uri : String)
    (herr : ∀ r, ∃ m, remote r = .error m) :
    (P1.translateAnalysisInBackground remote lang store text uri tgt).1 = store ∧
    (D.translateAnalysisInBackground digest remote now lang st text uri tgt).1.store
      = st.store ∧
    (D.translateAnalysis digest remote now lang st text tgt).2.1.store = st.store ∧
    (D.translateAnalysis digest remote now lang st text tgt).2.1.memCache
      = st.memCache := by
  obtain ⟨m, hm⟩ := herr (textReq (translationPrompt tgt text))
  refine ⟨?_, ?_, ?_, ?_⟩ <;>
    simp [P1.translateAnalysisInBackground, D.translateAnalysisInBackground,
      D.translateAnalysis, hm]

/-- Witness for the amended C3 at a concrete state and failing remote. -/
theorem remote_error_writes_nothing_witness :
    let st : D.DState :=
      { memCache := [("h1", "A cat.")],
        store := [("analysisCache", .record [("h1", "A cat.")])],
        capturedPhotos := [⟨"a"⟩], selectedPhoto := some ⟨"a"⟩,
        aiAnalysis := some "A cat.", isAnalyzing := false, analysisStep := "",
        isAnalysisCollapsed := false, selectedLanguage := .en,
        isLanguageMenuOpen := false, isSelectionMode := false, selectedPhotos := [],
        showDeleteConfirmation := false }
    let store0 : Store := [("analyses", .record [("a_en", "A cat.")])]
    let remote : Remote := fun _ => .error "network down"
    (P1.translateAnalysisInBackground remote .en store0 "A cat." "a" .es).1 = store0 ∧
    (D.translateAnalysisInBackground (fun u => u) remote "T0" .en st "A cat." "a" .es).1.store
      = st.store ∧
    (D.translateAnalysis (fun u => u) remote "T0" .en st "A cat." .es).2.1.store
      = st.store ∧
    (D.translateAnalysis (fun u => u) remote "T0" .en st "A cat." .es).2.1.memCache
      = st.memCache :=
  remote_error_writes_nothing (fun u => u) (fun _ => .error "network down") "T0"
    .en .es _ _ "A cat." "a" (fun _ => ⟨"network down", rfl⟩)

/-- Counterexample to claim C4 as stated: on a remote failure,
`translateAnalysis` of `Detail.tsx` does not return a failure result — its
catch returns the error message embedded in an ordinary annotation string,
indistinguishable in kind from a successful annotation (though nothing is
persisted and exactly one request was made). -/
theorem translateAnalysis_returns_error_as_plain_text :
    let st : D.DState :=
      { memCache := [], store := [], capturedPhotos := [⟨"a"⟩],
        selectedPhoto := some ⟨"a"⟩, aiAnalysis := some "A cat.", isAnalyzing := false,
        analysisStep := "", isAnalysisCollapsed := false, selectedLanguage := .es,
        isLanguageMenuOpen := false, isSelectionMode := false, selectedPhotos := [],
        showDeleteConfirmation := false }
    let out := D.translateAnalysis (fun _ => "h0") (fun _ => .error "boom") "T0" .es st "A cat." .es
    out.1 = "Error translating text: boom" ∧
    out.2.1.store = st.store ∧
    out.2.2 = [textReq (translationPrompt .es "A cat.")] := by
  decide

/-- Claim C4 as amended: on a cache miss with a failing remote annotator,
`analyzeImage` of `Detail.tsx` rejects with exactly the remote error's message
(the promise `reject(error)` path), issues exactly one remote request (no
retry), and writes neither cache layer — the failure is never turned into a
cache hit.  The `translateAnalysis` path, however, returns the message as an
ordinary string (see the counterexample), not as a failure. -/
theorem analyzeImage_error_surfaced_once_no_write
    (digest optimize toBase64 : String → String) (remote : Remote) (now : String)
    (st : D.DState) (uri msg : String)
    (hmem : truthy (lookupA st.memCache (digest (annKey uri st.selectedLanguage))) = false)
    (hmiss : storageCacheMiss st.store (digest (annKey uri st.selectedLanguage)) = true)
    (herr : remote
      { model := "gpt-4o-mini", max_tokens := none,
        parts := [.text (D.describePrompt st.selectedLanguage),
                  .imageUrl ("data:image/jpeg;base64," ++ toBase64 (optimize uri))] }
      = .error msg) :
    (D.analyzeImage digest optimize toBase64 remote now st uri).1 = .error msg ∧
    (D.analyzeImage digest optimize toBase64 remote now st uri).2.2 =
      [{ model := "gpt-4o-mini", max_tokens := none,
         parts := [.text (D.describePrompt st.selectedLanguage),
                   .imageUrl ("data:image/jpeg;base64," ++ toBase64 (optimize uri))] }] ∧
    (D.analyzeImage digest optimize toBase64 remote now st uri).2.1.store = st.store ∧
    (D.analyzeImage digest optimize toBase64 remote now st uri).2.1.memCache
      = st.memCache := by
  have hstorage :
      (D.analyzeImageStorage optimize toBase64 remote now
        { st with isAnalyzing := true, aiAnalysis := none } uri
        (digest (annKey uri st.selectedLanguage))).1 = .error msg ∧
      (D.analyzeImageStorage optimize toBase64 remote now
        { st with isAnalyzing := true, aiAnalysis := none } uri
        (digest (annKey uri st.selectedLanguage))).2.2 =
        [{ model := "gpt-4o-mini", max_tokens := none,
           parts := [.text (D.describePrompt st.selectedLanguage),
                     .imageUrl ("data:image/jpeg;base64," ++ toBase64 (optimize uri))] }] ∧
      (D.analyzeImageStorage optimize toBase64 remote now
        { st with isAnalyzing := true, aiAnalysis := none } uri
        (digest (annKey uri st.selectedLanguage))).2.1.store = st.store ∧
      (D.analyzeImageStorage optimize toBase64 remote now
        { st with isAnalyzing := true, aiAnalysis := none } uri
        (digest (annKey uri st.selectedLanguage))).2.1.memCache = st.memCache := by
    cases hc : lookupA st.store "analysisCache" with
    | none =>
        simp [D.analyzeImageStorage, D.analyzeImageRemote, hc, herr]
    | some w =>
        cases w with
        | record parsedCache =>
            simp only [storageCacheMiss, hc] at hmiss
            cases hr : lookupA parsedCache (digest (annKey uri st.selectedLanguage)) with
            | none =>
                simp [D.analyzeImageStorage, D.analyzeImageRemote, hc, hr, herr]
            | some v =>
                rw [hr] at hmiss
                simp only [decide_eq_true_eq] at hmiss
                simp [D.analyzeImageStorage, D.analyzeImageRemote, hc, hr, hmiss, herr]
        | str v => simp [D.analyzeImageStorage, D.analyzeImageRemote, hc, herr]
        | photoList v => simp [D.analyzeImageStorage, D.analyzeImageRemote, hc, herr]
        | annObj a b c => simp [D.analyzeImageStorage, D.analyzeImageRemote, hc, herr]
  cases hv : lookupA st.memCache (digest (annKey uri st.selectedLanguage)) with
  | none => simpa [D.analyzeImage, hv] using hstorage
  | some v =>
      have hv0 : v = "" := by simpa [truthy, hv] using hmem
      simpa [D.analyzeImage, hv, hv0] using hstorage

/-- Witness for the amended C4 at a concrete state and failing remote. -/
theorem analyzeImage_error_surfaced_witness :
    let st : D.DState :=
      { memCache := [], store := [], capturedPhotos := [⟨"a"⟩],
        selectedPhoto := some ⟨"a"⟩, aiAnalysis := none, isAnalyzing := false,
        analysisStep := "", isAnalysisCollapsed := false, selectedLanguage := .en,
        isLanguageMenuOpen := false, isSelectionMode := false, selectedPhotos := [],
        showDeleteConfirmation := false }
    let remote : Remote := fun _ => .error "boom"
    truthy (lookupA st.memCache ((fun u => u) (annKey "a" st.selectedLanguage))) = false ∧
    storageCacheMiss st.store ((fun u => u) (annKey "a" st.selectedLanguage)) = true ∧
    ((D.analyzeImage (fun u => u) (fun u => u) (fun u => u) remote "T0" st "a").1 =
        .error "boom" ∧
      (D.analyzeImage (fun u => u) (fun u => u) (fun u => u) remote "T0" st "a").2.2 =
        [{ model := "gpt-4o-mini", max_tokens := none,
           parts := [.text (D.describePrompt .en),
                     .imageUrl ("data:image/jpeg;base64," ++ "a")] }] ∧
      (D.analyzeImage (fun u => u) (fun u => u) (fun u => u) remote "T0" st "a").2.1.store
        = st.store ∧
      (D.analyzeImage (fun u => u) (fun u => u) (fun u => u) remote "T0" st "a").2.1.memCache
        = st.memCache) :=
  ⟨rfl, rfl,
    analyzeImage_error_surfaced_once_no_write (fun u => u) (fun u => u) (fun u => u)
      (fun _ => .error "boom") "T0" _ "a" "boom" rfl rfl rfl⟩

theorem jsOr_ne_empty (c : Option String) (d : String) (hd : d ≠ "") : jsOr c d ≠ "" := by
  cases c with
  | none => simpa [jsOr] using hd
  | some s =>
      by_cases hs : s = "" <;> simp [jsOr, hs, hd]

theorem saveAnalysisToStorage_memCache (now : String) (lang : Lang) (st : D.DState)
    (uri analysis imageHash : String) :
    lookupA (D.saveAnalysisToStorage now lang st uri analysis imageHash).memCache imageHash
      = some analysis := by
  cases hc : lookupA st.store "analysisCache" with
  | none => simp [D.saveAnalysisToStorage, hc, lookupA_setA_self]
  | some w => cases w <;> simp [D.saveAnalysisToStorage, hc, lookupA_setA_self]

theorem saveAnalysisToStorage_selectedLanguage (now : String) (lang : Lang)
    (st : D.DState) (uri analysis imageHash : String) :
    (D.saveAnalysisToStorage now lang st uri analysis imageHash).selectedLanguage
      = st.selectedLanguage := by
  cases hc : lookupA st.store "analysisCache" with
  | none => simp [D.saveAnalysisToStorage, hc]
  | some w => cases w <;> simp [D.saveAnalysisToStorage, hc]

theorem analyzeImageRemote_ok_invariant (optimize toBase64 : String → String)
    (remote : Remote) (now : String) (st : D.DState) (uri imageHash a : String)
    (hok : (D.analyzeImageRemote optimize toBase64 remote now st uri imageHash).1 = .ok a) :
    lookupA (D.analyzeImageRemote optimize toBase64 remote now st uri imageHash).2.1.memCache
        imageHash = some a ∧ a ≠ "" ∧
    (D.analyzeImageRemote optimize toBase64 remote now st uri imageHash).2.1.selectedLanguage
      = st.selectedLanguage := by
  cases hr : remote
      { model := "gpt-4o-mini", max_tokens := none,
        parts := [.text (D.describePrompt st.selectedLanguage),
                  .imageUrl ("data:image/jpeg;base64," ++ toBase64 (optimize uri))] } with
  | error msg =>
      simp [D.analyzeImageRemote, hr] at hok
  | ok content =>
      simp only [D.analyzeImageRemote, hr] at hok ⊢
      simp only [Except.ok.injEq] at hok
      subst hok
      refine ⟨?_, jsOr_ne_empty content _ (by decide), ?_⟩
      · simpa using saveAnalysisToStorage_memCache now st.selectedLanguage _ uri _ imageHash
      · simpa using saveAnalysisToStorage_selectedLanguage now st.selectedLanguage _ uri _ imageHash

theorem analyzeImageStorage_ok_invariant (optimize toBase64 : String → String)
    (remote : Remote) (now : String) (st : D.DState) (uri imageHash a : String)
    (hok : (D.analyzeImageStorage optimize toBase64 remote now st uri imageHash).1 = .ok a) :
    lookupA (D.analyzeImageStorage optimize toBase64 remote now st uri imageHash).2.1.memCache
        imageHash = some a ∧ a ≠ "" ∧
    (D.analyzeImageStorage optimize toBase64 remote now st uri imageHash).2.1.selectedLanguage
      = st.selectedLanguage := by
  cases hc : lookupA st.store "analysisCache" with
  | none =>
      have h1 := analyzeImageRemote_ok_invariant optimize toBase64 remote now
        { st with analysisStep := "Checking storage..." } uri imageHash a
      simp only [D.analyzeImageStorage, hc] at hok ⊢
      simpa using h1 (by simpa using hok)
  | some w =>
      cases w with
      | record parsedCache =>
          cases hr : lookupA parsedCache imageHash with
          | none =>
              have h1 := analyzeImageRemote_ok_invariant optimize toBase64 remote now
                { st with analysisStep := "Checking storage..." } uri imageHash a
              simp only [D.analyzeImageStorage, hc, hr] at hok ⊢
              simpa using h1 (by simpa using hok)
          | some v =>
              by_cases hv : v = ""
              · have h1 := analyzeImageRemote_ok_invariant optimize toBase64 remote now
                  { st with analysisStep := "Checking storage..." } uri imageHash a
                simp only [D.analyzeImageStorage, hc, hr, hv, if_pos rfl] at hok ⊢
                simpa using h1 (by simpa using hok)
              · simp only [D.analyzeImageStorage, hc, hr, if_neg hv] at hok ⊢
                simp only [Except.ok.injEq] at hok
                subst hok
                simpa [lookupA_setA_self] using hv
      | str v =>
          have h1 := analyzeImageRemote_ok_invariant optimize toBase64 remote now
            { st with analysisStep := "Checking storage..." } uri imageHash a
          simp only [D.analyzeImageStorage, hc] at hok ⊢
          simpa using h1 (by simpa using hok)
      | photoList v =>
          have h1 := analyzeImageRemote_ok_invariant optimize toBase64 remote now
            { st with analysisStep := "Checking storage..." } uri imageHash a
          simp only [D.analyzeImageStorage, hc] at hok ⊢
          simpa using h1 (by simpa using hok)
      | annObj x y z =>
          have h1 := analyzeImageRemote_ok_invariant optimize toBase64 remote now
            { st with analysisStep := "Checking storage..." } uri imageHash a
          simp only [D.analyzeImageStorage, hc] at hok ⊢
          simpa using h1 (by simpa using hok)

theorem analyzeImage_ok_invariant (digest optimize toBase64 : String → String)
    (remote : Remote) (now : String) (st : D.DState) (uri a : String)
    (hok : (D.analyzeImage digest optimize toBase64 remote now st uri).1 = .ok a) :
    lookupA (D.analyzeImage digest optimize toBase64 remote now st uri).2.1.memCache
        (digest (annKey uri st.selectedLanguage)) = some a ∧ a ≠ "" ∧
    (D.analyzeImage digest optimize toBase64 remote now st uri).2.1.selectedLanguage
      = st.selectedLanguage := by
  cases hv : lookupA st.memCache (digest (annKey uri st.selectedLanguage)) with
  | none =>
      have h1 := analyzeImageStorage_ok_invariant optimize toBase64 remote now
        { st with isAnalyzing := true, aiAnalysis := none } uri
        (digest (annKey uri st.selectedLanguage)) a
      simp only [D.analyzeImage, hv] at hok ⊢
      simpa using h1 (by simpa using hok)
  | some v =>
      by_cases hve : v = ""
      · have h1 := analyzeImageStorage_ok_invariant optimize toBase64 remote now
          { st with isAnalyzing := true, aiAnalysis := none } uri
          (digest (annKey uri st.selectedLanguage)) a
        simp only [D.analyzeImage, hv, hve, if_pos rfl] at hok ⊢
        simpa using h1 (by simpa using hok)
      · simp only [D.analyzeImage, hv, if_neg hve] at hok ⊢
        simp only [Except.ok.injEq] at hok
        subst hok
        simpa [hv] using hve

/-- Claim C5: the resolver is idempotent — if `analyzeImage` of `Detail.tsx`
resolves to an annotation, running it again on the resulting state with no
intervening mutation resolves to the identical annotation text, and the second
run issues no remote request at all (a pure cache hit from the in-memory
cache populated by the first run). -/
theorem analyzeImage_idempotent (digest optimize toBase64 : String → String)
    (remote : Remote) (now : String) (st : D.DState) (uri a : String)
    (hok : (D.analyzeImage digest optimize toBase64 remote now st uri).1 = .ok a) :
    (D.analyzeImage digest optimize toBase64 remote now
        (D.analyzeImage digest optimize toBase64 remote now st uri).2.1 uri).1 = .ok a ∧
    (D.analyzeImage digest optimize toBase64 remote now
        (D.analyzeImage digest optimize toBase64 remote now st uri).2.1 uri).2.2 = [] := by
  obtain ⟨hm, hne, hsel⟩ :=
    analyzeImage_ok_invariant digest optimize toBase64 remote now st uri a hok
  rw [← hsel] at hm
  set s1 := (D.analyzeImage digest optimize toBase64 remote now st uri).2.1 with hs1
  constructor <;> simp [D.analyzeImage, hm, hne]

/-- Witness for C5: an empty state, a succeeding remote; the first run
resolves "A cat." and the second run returns it again with no request. -/
theorem analyzeImage_idempotent_witness :
    let st : D.DState :=
      { memCache := [], store := [], capturedPhotos := [⟨"a"⟩],
        selectedPhoto := some ⟨"a"⟩, aiAnalysis := none, isAnalyzing := false,
        analysisStep := "", isAnalysisCollapsed := false, selectedLanguage := .en,
        isLanguageMenuOpen := false, isSelectionMode := false, selectedPhotos := [],
        showDeleteConfirmation := false }
    let remote : Remote := fun _ => .ok (some "A cat.")
    (D.analyzeImage (fun u => u) (fun u => u) (fun u => u) remote "T0" st "a").1 =
      .ok "A cat." ∧
    ((D.analyzeImage (fun u => u) (fun u => u) (fun u => u) remote "T0"
        (D.analyzeImage (fun u => u) (fun u => u) (fun u => u) remote "T0" st "a").2.1
        "a").1 = .ok "A cat." ∧
      (D.analyzeImage (fun u => u) (fun u => u) (fun u => u) remote "T0"
        (D.analyzeImage (fun u => u) (fun u => u) (fun u => u) remote "T0" st "a").2.1
        "a").2.2 = []) :=
  ⟨by decide,
    analyzeImage_idempotent (fun u => u) (fun u => u) (fun u => u)
      (fun _ => .ok (some "A cat.")) "T0" _ "a" "A cat." (by decide)⟩

/-- Counterexample to claim C7 as stated: the round-trip is not exact for an
empty annotation text.  After `put` of the empty string for ("a", es) into a
store that also holds an English annotation "hello", `get` for ("a", es)
falls through the JS truthiness check and returns the other language's
"hello" instead of the stored "". -/
theorem empty_annotation_roundtrip_falls_back :
    let store0 : Store := [("analyses", .record [("a_en", "hello")])]
    P1.loadAnalysisForPhoto .es (P1.saveAnalysisForPhoto .es store0 "a" "") "a" =
      some "hello" ∧ some "hello" ≠ some "" := by
  decide

theorem saveAnalysisToStorage_store_entry (now : String) (lang : Lang) (st : D.DState)
    (uri analysis imageHash : String)
    (h : recordShaped (lookupA st.store "analysisCache") = true) :
    lookupA (D.saveAnalysisToStorage now lang st uri analysis imageHash).store
      (storageAnnKey uri lang) = some (.annObj analysis now lang.code) := by
  cases hc : lookupA st.store "analysisCache" with
  | none => simp [D.saveAnalysisToStorage, hc, lookupA_setA_self]
  | some w =>
      cases w with
      | record r => simp [D.saveAnalysisToStorage, hc, lookupA_setA_self]
      | str v => simp [recordShaped, hc] at h
      | photoList v => simp [recordShaped, hc] at h
      | annObj x y z => simp [recordShaped, hc] at h

/-- Claim C7 as amended: for a non-empty annotation text, put followed by get
with no intervening mutation returns exactly the stored annotation, in both
layouts: part_001's `saveAnalysisForPhoto`/`loadAnalysisForPhoto` return the
same text, and `Detail.tsx`'s `saveAnalysisToStorage` leaves an entry whose
`loadAnalysisFromStorage` read returns the same text and whose stored
metadata carries the same language.  (Exactness fails for the empty text,
per the counterexample.) -/
theorem roundtrip_nonempty_annotation (digest : String → String) (remote : Remote)
    (now : String) (lang : Lang) (store : Store) (st : D.DState)
    (uri analysis imageHash : String)
    (h1 : recordShaped (lookupA store "analyses") = true)
    (h2 : analysis ≠ "")
    (h3 : recordShaped (lookupA st.store "analysisCache") = true) :
    P1.loadAnalysisForPhoto lang (P1.saveAnalysisForPhoto lang store uri analysis) uri
      = some analysis ∧
    (D.loadAnalysisFromStorage digest remote now lang
        (D.saveAnalysisToStorage now lang st uri analysis imageHash) uri).1
      = some analysis ∧
    lookupA (D.saveAnalysisToStorage now lang st uri analysis imageHash).store
        (storageAnnKey uri lang) = some (.annObj analysis now lang.code) := by
  have hentry := saveAnalysisToStorage_store_entry now lang st uri analysis imageHash h3
  refine ⟨?_, ?_, hentry⟩
  · cases hrec : lookupA store "analyses" with
    | none =>
        simp [P1.saveAnalysisForPhoto, P1.loadAnalysisForPhoto, hrec,
          lookupA_setA_self, lookupA, h2]
    | some w =>
        cases w with
        | record r =>
            simp [P1.saveAnalysisForPhoto, P1.loadAnalysisForPhoto, hrec,
              lookupA_setA_self, h2]
        | str v => simp [recordShaped, hrec] at h1
        | photoList v => simp [recordShaped, hrec] at h1
        | annObj x y z => simp [recordShaped, hrec] at h1
  · simp [D.loadAnalysisFromStorage, hentry]

/-- Witness for the amended C7 at concrete stores. -/
theorem roundtrip_nonempty_annotation_witness :
    let store0 : Store := [("analyses", .record [("a_en", "hello")])]
    let st : D.DState :=
      { memCache := [], store := [("analysisCache", .record [("h0", "old")])],
        capturedPhotos := [⟨"a"⟩], selectedPhoto := some ⟨"a"⟩, aiAnalysis := none,
        isAnalyzing := false, analysisStep := "", isAnalysisCollapsed := false,
        selectedLanguage := .es, isLanguageMenuOpen := false, isSelectionMode := false,
        selectedPhotos := [], showDeleteConfirmation := false }
    recordShaped (lookupA store0 "analyses") = true ∧
    ("Un gato." ≠ "") ∧
    recordShaped (lookupA st.store "analysisCache") = true ∧
    (P1.loadAnalysisForPhoto .es (P1.saveAnalysisForPhoto .es store0 "a" "Un gato.") "a"
        = some "Un gato." ∧
      (D.loadAnalysisFromStorage (fun u => u) (fun _ => .error "down") "T0" .es
          (D.saveAnalysisToStorage "T0" .es st "a" "Un gato." "h1") "a").1
        = some "Un gato." ∧
      lookupA (D.saveAnalysisToStorage "T0" .es st "a" "Un gato." "h1").store
          (storageAnnKey "a" .es) = some (.annObj "Un gato." "T0" "es")) :=
  ⟨by decide, by decide, by decide,
    roundtrip_nonempty_annotation (fun u => u) (fun _ => .error "down") "T0" .es
      _ _ "a" "Un gato." "h1" (by decide) (by decide) (by decide)⟩

/-- Counterexample to claim C2 as stated, on the part_001 resolver: with an
English annotation stored for "a" and none in Spanish, `analyzeImage` with
selected language Spanish issues no remote request at all — neither translate
nor describe — returns the untranslated English text as the resolved
annotation, and afterwards no annotation exists under the ("a", es) key. -/
theorem p1_fallback_returns_untranslated_without_write :
    let st : P1.PState :=
      { store := [("analyses", .record [("a_en", "A cat.")])],
        capturedPhotos := [⟨"a"⟩], selectedPhoto := some ⟨"a"⟩, aiAnalysis := none,
        isAnalyzing := false, analysisStep := "", selectedLanguage := .es,
        isLanguageMenuOpen := false, isSelectionMode := false, selectedPhotos := [],
        showDeleteConfirmation := false }
    let out := P1.analyzeImage (fun u => u) (fun u => u)
      (fun _ => .ok (some "unused")) st "a"
    out.1 = .ok "A cat." ∧ out.2.2 = [] ∧
    (match lookupA out.2.1.store "analyses" with
     | some (.record r) => lookupA r (annKey "a" .es)
     | _ => none) = none := by
  decide

theorem storageAnnKey_split (uri : String) (l : Lang) :
    storageAnnKey uri l = ("analysis_" ++ uri ++ "_") ++ l.code := by
  simp [storageAnnKey, annKey, str_append_assoc]

theorem jsStartsWith_trans (k p q : String) (h : jsStartsWith k (p ++ q) = true) :
    jsStartsWith k p = true := by
  unfold jsStartsWith at h ⊢
  obtain ⟨t, ht⟩ := eq_append_of_isPrefixOf h
  rw [ht, data_append, List.append_assoc]
  exact isPrefixOf_self_append _ _

theorem annObj_of_analysesShaped {s : Store} {k : String} {v : StoredVal}
    (hsh : analysesShaped s = true) (hl : lookupA s k = some v)
    (hpre : jsStartsWith k "analysis_" = true) :
    ∃ t ts lg, v = .annObj t ts lg := by
  have hmem := mem_of_lookupA hl
  have hall := (List.all_eq_true.mp hsh) _ hmem
  rw [hpre] at hall
  simp only [Bool.not_true, Bool.false_or] at hall
  cases v with
  | annObj t ts lg => exact ⟨t, ts, lg, rfl⟩
  | str a => simp [isAnnObj] at hall
  | record a => simp [isAnnObj] at hall
  | photoList a => simp [isAnnObj] at hall

/-- Claim C2 as amended: the fallback contract holds for
`loadAnalysisFromStorage` of `Detail.tsx` — with no annotation stored under
the selected language's key but one stored for the same uri in another
language, it issues at least one request, every issued request is text-only
(a translate, never a describe), and afterwards an annotation is present
under the key derived from (uri, selected language).  The analyze entry
points do not honor this contract: part_001's `analyzeImage` returns the
other-language text with no request and no write (per the counterexample),
and `Detail.tsx`'s `analyzeImage` falls through to a describe request on a
hash miss. -/
theorem loadAnalysisFromStorage_fallback_translates (digest : String → String)
    (remote : Remote) (now : String) (lang srcLang : Lang) (st : D.DState)
    (uri tSrc ts : String)
    (hmiss : lookupA st.store (storageAnnKey uri lang) = none)
    (hsrc : lookupA st.store (storageAnnKey uri srcLang) =
      some (.annObj tSrc ts srcLang.code))
    (hshape : analysesShaped st.store = true)
    (hcache : recordShaped (lookupA st.store "analysisCache") = true)
    (hok : ∀ r, ∃ c, remote r = .ok c) :
    (D.loadAnalysisFromStorage digest remote now lang st uri).2.2 ≠ [] ∧
    (∀ r ∈ (D.loadAnalysisFromStorage digest remote now lang st uri).2.2,
      r.hasImage = false) ∧
    (∃ t, lookupA (D.loadAnalysisFromStorage digest remote now lang st uri).2.1.store
        (storageAnnKey uri lang) = some (.annObj t now lang.code)) := by
  have hmemk : storageAnnKey uri srcLang ∈ keysA st.store := lookupA_mem_keysA hsrc
  have hpred : jsStartsWith (storageAnnKey uri srcLang) ("analysis_" ++ uri ++ "_")
      = true := by
    rw [storageAnnKey_split]
    exact jsStartsWith_append _ _
  have hin : storageAnnKey uri srcLang ∈
      (keysA st.store).filter (fun k => jsStartsWith k ("analysis_" ++ uri ++ "_")) :=
    List.mem_filter.mpr ⟨hmemk, hpred⟩
  cases hm : (keysA st.store).filter
      (fun k => jsStartsWith k ("analysis_" ++ uri ++ "_")) with
  | nil =>
      rw [hm] at hin
      simp at hin
  | cons fk rest =>
      have hfk : fk ∈ (keysA st.store).filter
          (fun k => jsStartsWith k ("analysis_" ++ uri ++ "_")) := by
        rw [hm]
        exact List.mem_cons_self _ _
      obtain ⟨hfkmem, hfkpred⟩ := List.mem_filter.mp hfk
      obtain ⟨v, hv⟩ := exists_lookupA_of_mem_keysA hfkmem
      have hfkpre : jsStartsWith fk "analysis_" = true := by
        refine jsStartsWith_trans fk "analysis_" (uri ++ "_") ?_
        simpa [str_append_assoc] using hfkpred
      obtain ⟨t0, ts0, lg0, rfl⟩ := annObj_of_analysesShaped hshape hv hfkpre
      obtain ⟨c, hc⟩ := hok (textReq (translationPrompt lang t0))
      have hentry := saveAnalysisToStorage_store_entry now lang
        { st with isAnalyzing := true } uri (jsOr c "Translation failed")
        (digest (annKey uri lang)) (by simpa using hcache)
      simp only [D.loadAnalysisFromStorage, hmiss, hm, hv, hc]
      refine ⟨by simp, ?_, ?_⟩
      · intro r hr
        simp only [List.mem_singleton] at hr
        subst hr
        rfl
      · exact ⟨jsOr c "Translation failed", by simpa using hentry⟩

/-- Witness for the amended C2 at a concrete store with an English annotation
and a succeeding remote translator. -/
theorem loadAnalysisFromStorage_fallback_witness :
    let st : D.DState :=
      { memCache := [], store := [("analysis_a_en", .annObj "A cat." "T1" "en")],
        capturedPhotos := [⟨"a"⟩], selectedPhoto := some ⟨"a"⟩, aiAnalysis := none,
        isAnalyzing := false, analysisStep := "", isAnalysisCollapsed := false,
        selectedLanguage := .es, isLanguageMenuOpen := false, isSelectionMode := false,
        selectedPhotos := [], showDeleteConfirmation := false }
    let remote : Remote := fun _ => .ok (some "Un gato.")
    lookupA st.store (storageAnnKey "a" .es) = none ∧
    lookupA st.store (storageAnnKey "a" .en) = some (.annObj "A cat." "T1" "en") ∧
    analysesShaped st.store = true ∧
    recordShaped (lookupA st.store "analysisCache") = true ∧
    ((D.loadAnalysisFromStorage (fun u => u) remote "T0" .es st "a").2.2 ≠ [] ∧
      (∀ r ∈ (D.loadAnalysisFromStorage (fun u => u) remote "T0" .es st "a").2.2,
        r.hasImage = false) ∧
      (∃ t, lookupA
          (D.loadAnalysisFromStorage (fun u => u) remote "T0" .es st "a").2.1.store
          (storageAnnKey "a" .es) = some (.annObj t "T0" "es"))) :=
  ⟨by decide, by decide, by decide, by decide,
    loadAnalysisFromStorage_fallback_translates (fun u => u)
      (fun _ => .ok (some "Un gato.")) "T0" .es .en _ "a" "A cat." "T1"
      (by decide) (by decide) (by decide) (by decide)
      (fun _ => ⟨some "Un gato.", rfl⟩)⟩

/-- Counterexample to claim C9 as stated: with photos "a" and "ab" and only
"a" selected, `deleteSelectedPhotos` of `Detail.tsx` also removes the
annotation of the unselected photo "ab", because its storage key
"analysis_ab_en" starts with "analysis_a". -/
theorem deleteSelectedPhotos_removes_prefix_colliding_annotation :
    let st : D.DState :=
      { memCache := [],
        store := [("analysis_a_en", .annObj "cat A" "T0" "en"),
                  ("analysis_ab_en", .annObj "cat B" "T0" "en")],
        capturedPhotos := [⟨"a"⟩, ⟨"ab"⟩], selectedPhoto := none, aiAnalysis := none,
        isAnalyzing := false, analysisStep := "", isAnalysisCollapsed := false,
        selectedLanguage := .en, isLanguageMenuOpen := false, isSelectionMode := true,
        selectedPhotos := ["a"], showDeleteConfirmation := true }
    (D.deleteSelectedPhotos st).capturedPhotos = [⟨"ab"⟩] ∧
    lookupA (D.deleteSelectedPhotos st).store "analysis_ab_en" = none := by
  decide

theorem contains_eq_false_of_not_mem {l : List String} {x : String}
    (h : x ∉ l) : l.contains x = false := by
  cases hc : l.contains x with
  | false => rfl
  | true => exact absurd (List.mem_of_elem_eq_true hc) h

theorem deleteForUri_frame (sm : Store × List (String × String)) (uri k : String)
    (h1 : k ≠ "analysisCache")
    (h2 : jsStartsWith k ("analysis_" ++ uri) = false) :
    lookupA (D.deleteForUri sm uri).1 k = lookupA sm.1 k := by
  have hnot : k ∉ (keysA sm.1).filter
      (fun kk => jsStartsWith kk ("analysis_" ++ uri) || kk == "analysisCache") := by
    intro hk
    obtain ⟨_, hcond⟩ := List.mem_filter.mp hk
    simp only [Bool.or_eq_true, beq_iff_eq] at hcond
    rcases hcond with hs | he
    · rw [h2] at hs
      exact Bool.false_ne_true hs
    · exact h1 he
  unfold D.deleteForUri
  simp only []
  cases hcac : ((keysA sm.1).filter
      (fun kk => jsStartsWith kk ("analysis_" ++ uri) || kk == "analysisCache")).contains
      "analysisCache" with
  | true =>
      rw [if_pos rfl]
      cases hl : lookupA sm.1 "analysisCache" with
      | none => rfl
      | some w =>
          cases w with
          | record r => exact lookupA_setA_ne _ _ h1
          | str v => rfl
          | photoList v => rfl
          | annObj x y z => rfl
  | false =>
      rw [if_neg Bool.false_ne_true]
      cases hemp : ((keysA sm.1).filter
          (fun kk => jsStartsWith kk ("analysis_" ++ uri) || kk == "analysisCache")).isEmpty with
      | true => rw [if_pos rfl]
      | false =>
          rw [if_neg Bool.false_ne_true]
          rw [lookupA_filter_not]
          rw [contains_eq_false_of_not_mem hnot]
          rw [if_neg Bool.false_ne_true]

theorem deleteLoop_frame (S : List String) (sm : Store × List (String × String))
    (k : String) (h1 : k ≠ "analysisCache")
    (h2 : ∀ uri ∈ S, jsStartsWith k ("analysis_" ++ uri) = false) :
    lookupA (S.foldl D.deleteForUri sm).1 k = lookupA sm.1 k := by
  induction S generalizing sm with
  | nil => rfl
  | cons u rest ih =>
      rw [List.foldl_cons]
      rw [ih (D.deleteForUri sm u) (fun uri hu => h2 uri (List.mem_cons_of_mem _ hu))]
      exact deleteForUri_frame sm u k h1 (h2 u (List.mem_cons_self _ _))

/-- Claim C9 as amended: `deleteSelectedPhotos` of `Detail.tsx` removes from
the photo collection exactly the photos whose uri is selected, preserving the
relative order of the remaining photos; and every persisted entry whose key
is not the photo-collection record, not the "analysisCache" record, and does
not extend "analysis_<uri>" for any selected uri is unchanged.  The substring
/ prefix part of the claim fails: when a selected uri is a prefix of another
photo's uri, that photo's annotation entries are deleted too (per the
counterexample). -/
theorem deleteSelectedPhotos_frame (st : D.DState) :
    (List.Sublist (D.deleteSelectedPhotos st).capturedPhotos st.capturedPhotos ∧
      ∀ p, p ∈ (D.deleteSelectedPhotos st).capturedPhotos ↔
        (p ∈ st.capturedPhotos ∧ st.selectedPhotos.contains p.uri = false)) ∧
    ∀ k, k ≠ "capturedPhotos" → k ≠ "analysisCache" →
      (∀ uri ∈ st.selectedPhotos, jsStartsWith k ("analysis_" ++ uri) = false) →
      lookupA (D.deleteSelectedPhotos st).store k = lookupA st.store k := by
  refine ⟨⟨?_, ?_⟩, ?_⟩
  · simp only [D.deleteSelectedPhotos]
    exact List.filter_sublist st.capturedPhotos
  · intro p
    simp [D.deleteSelectedPhotos, List.mem_filter]
  · intro k hk1 hk2 hk3
    simp only [D.deleteSelectedPhotos]
    rw [deleteLoop_frame st.selectedPhotos _ k hk2 hk3]
    exact lookupA_setA_ne _ _ hk1

/-- Witness for the amended C9: deleting "a" leaves the annotation of photo
"b" (whose key does not extend "analysis_a") untouched. -/
theorem deleteSelectedPhotos_frame_witness :
    let st : D.DState :=
      { memCache := [],
        store := [("analysis_a_en", .annObj "cat A" "T0" "en"),
                  ("analysis_b_en", .annObj "cat B" "T0" "en")],
        capturedPhotos := [⟨"a"⟩, ⟨"b"⟩], selectedPhoto := none, aiAnalysis := none,
        isAnalyzing := false, analysisStep := "", isAnalysisCollapsed := false,
        selectedLanguage := .en, isLanguageMenuOpen := false, isSelectionMode := true,
        selectedPhotos := ["a"], showDeleteConfirmation := true }
    ("analysis_b_en" ≠ "capturedPhotos") ∧ ("analysis_b_en" ≠ "analysisCache") ∧
    (∀ uri ∈ st.selectedPhotos, jsStartsWith "analysis_b_en" ("analysis_" ++ uri) = false) ∧
    lookupA (D.deleteSelectedPhotos st).store "analysis_b_en" =
      lookupA st.store "analysis_b_en" :=
  ⟨by decide, by decide, by decide,
    (deleteSelectedPhotos_frame _).2 "analysis_b_en" (by decide) (by decide) (by decide)⟩
